import Mathlib

/-!
Verification development for the MOAA conversational agent loop
(`brain.py`): a retrieval-augmented chat loop with a single registered
tool (`echo`).  The Python source is shallowly embedded below:

* `Json`, `loads`, `dumps` model the `json` module calls (`json.loads`
  at line 75, `json.dumps` at line 95) with Python's default settings
  (`ensure_ascii=True`, separators `", "` / `": "`).
* `pyStrip` models `str.strip()` (line 46).
* `validateEchoArgs` models `EchoArgs(**args)` under pydantic's lax
  validation (a `str` field accepts exactly JSON strings; numbers,
  booleans, null, arrays and objects are rejected; extra fields are
  ignored; a non-mapping `arguments` value raises before validation).
* `classify` models lines 74-87 (JSON decode, `payload.get`,
  `name not in TOOLS`).  A response that is valid JSON but not an
  object makes `payload.get` raise `AttributeError` (uncaught); a
  `name` value that is a JSON array or object is unhashable, so
  `name not in TOOLS` raises `TypeError` (uncaught).  Both are
  modelled as `PyError` outcomes.
* `runTurn` models one iteration of the `while True` loop in `main`
  (lines 45-102); `runLoop` iterates it; `initState` is the state
  after line 44.

Vector numerics are opaque to the loop (the embedding returned by the
embeddings API is only stored and forwarded, never inspected), so the
embedding vector is modelled as an uninterpreted `List Int`.  Strings
are Lean `String`s, i.e. sequences of Unicode scalar values; Python
strings containing lone surrogates are outside the model (none is
produced by the embedded code).
-/

/-- JSON values as produced by `json.loads`.  Numeric literals are kept
as their source text (the loop never computes with numbers). -/
inductive Json where
  | null
  | bool (b : Bool)
  | num (lit : String)
  | str (s : String)
  | arr (elems : List Json)
  | obj (fields : List (String × Json))

/-- Python `dict` lookup for an object built by `json.loads`: with
duplicate keys the last binding wins. -/
def objGet (fields : List (String × Json)) (k : String) : Option Json :=
  fields.foldl (fun acc kv => if kv.1 = k then some kv.2 else acc) none

/-- Whitespace skipped by Python's JSON decoder (regex `[ \t\n\r]*`). -/
def isJsonWs (c : Char) : Bool :=
  c = ' ' || c = '\t' || c = '\n' || c = '\r'

/-- Drop leading JSON whitespace. -/
def skipWs : List Char → List Char
  | [] => []
  | c :: cs => if isJsonWs c then skipWs cs else c :: cs

/-- Value of one hex digit, as accepted in a `\uXXXX` escape. -/
def hexVal? (c : Char) : Option Nat :=
  if '0' ≤ c ∧ c ≤ '9' then some (c.toNat - 48)
  else if 'a' ≤ c ∧ c ≤ 'f' then some (c.toNat - 87)
  else if 'A' ≤ c ∧ c ≤ 'F' then some (c.toNat - 55)
  else none

/-- Decode one single-character escape (the part after the backslash),
as accepted by Python's `json` decoder. -/
def escDecode1 (e : Char) : Option Char :=
  if e = '"' then some '"'
  else if e = '\\' then some '\\'
  else if e = '/' then some '/'
  else if e = 'b' then some '\x08'
  else if e = 'f' then some '\x0c'
  else if e = 'n' then some '\n'
  else if e = 'r' then some '\r'
  else if e = 't' then some '\t'
  else none

/-- Scanner state for a JSON string literal body: scanning plain
characters, just after a backslash, inside the four hex digits of a
`\uXXXX` escape (k digits remaining, v the value so far), or expecting
the `\uXXXX` low half of a surrogate pair after a decoded high half. -/
inductive StrPS where
  | normal
  | esc
  | hex (k v : Nat)
  | pair (hi : Nat)
  | pairU (hi : Nat)
  | pairHex (hi k v : Nat)

/-- JSON string-literal body scanner (the part after the opening
quote), one character per step: returns the decoded string and the
input remaining after the closing quote.  Escapes are handled as in
Python's `json` decoder; surrogate pairs written as two `\uXXXX`
escapes are combined into one scalar value.  A lone surrogate escape
is not representable as a Unicode scalar value and is rejected (model
boundary; Python would produce a non-scalar string there). -/
def parseJStringAux (st : StrPS) (acc : List Char) : List Char → Option (String × List Char)
  | [] => none
  | c :: rest =>
    match st with
    | .normal =>
      if c = '"' then some (⟨acc.reverse⟩, rest)
      else if c = '\\' then parseJStringAux .esc acc rest
      else if c.toNat < 0x20 then none
      else parseJStringAux .normal (c :: acc) rest
    | .esc =>
      if c = 'u' then parseJStringAux (.hex 4 0) acc rest
      else
        match escDecode1 c with
        | some ch => parseJStringAux .normal (ch :: acc) rest
        | none => none
    | .hex k v =>
      match hexVal? c with
      | none => none
      | some d =>
        if k = 1 then
          if v * 16 + d < 0xd800 ∨ 0xe000 ≤ v * 16 + d then
            parseJStringAux .normal (Char.ofNat (v * 16 + d) :: acc) rest
          else if v * 16 + d < 0xdc00 then
            parseJStringAux (.pair (v * 16 + d)) acc rest
          else none
        else parseJStringAux (.hex (k - 1) (v * 16 + d)) acc rest
    | .pair hi =>
      if c = '\\' then parseJStringAux (.pairU hi) acc rest else none
    | .pairU hi =>
      if c = 'u' then parseJStringAux (.pairHex hi 4 0) acc rest else none
    | .pairHex hi k v =>
      match hexVal? c with
      | none => none
      | some d =>
        if k = 1 then
          if 0xdc00 ≤ v * 16 + d ∧ v * 16 + d < 0xe000 then
            parseJStringAux .normal
              (Char.ofNat (0x10000 + (hi - 0xd800) * 0x400 + (v * 16 + d - 0xdc00)) :: acc) rest
          else none
        else parseJStringAux (.pairHex hi (k - 1) (v * 16 + d)) acc rest

/-- Parse the body of a JSON string literal starting after the opening
quote. -/
def parseJString (cs : List Char) : Option (String × List Char) :=
  parseJStringAux .normal [] cs

/-- One decimal-digit test. -/
def isDigitChar (c : Char) : Bool := '0' ≤ c ∧ c ≤ '9'

/-- Longest digit run at the front of the input. -/
def takeDigits : List Char → List Char × List Char
  | [] => ([], [])
  | c :: cs =>
    if isDigitChar c then
      let p := takeDigits cs
      (c :: p.1, p.2)
    else ([], c :: cs)

/-- JSON number literal per Python's NUMBER_RE:
`-? (0 | [1-9][0-9]*) (\.[0-9]+)? ([eE][-+]?[0-9]+)?`.
Returns the literal text and the rest of the input. -/
def parseNumber (cs : List Char) : Option (Json × List Char) :=
  let (sign, cs1) :=
    match cs with
    | '-' :: t => (['-'], t)
    | t => (([] : List Char), t)
  match cs1 with
  | [] => none
  | c :: t =>
    if ¬ isDigitChar c then none
    else
      let (intDigits, cs2) :=
        if c = '0' then ([c], t)
        else
          let p := takeDigits t
          (c :: p.1, p.2)
      let (fracPart, cs3) :=
        match cs2 with
        | '.' :: u =>
          let p := takeDigits u
          if p.1 = [] then (([] : List Char), cs2) else ('.' :: p.1, p.2)
        | _ => (([] : List Char), cs2)
      let (expPart, cs4) :=
        match cs3 with
        | e :: u =>
          if e = 'e' ∨ e = 'E' then
            match u with
            | s :: v =>
              if s = '+' ∨ s = '-' then
                let p := takeDigits v
                if p.1 = [] then (([] : List Char), cs3) else (e :: s :: p.1, p.2)
              else
                let p := takeDigits u
                if p.1 = [] then (([] : List Char), cs3) else (e :: p.1, p.2)
            | [] => (([] : List Char), cs3)
          else (([] : List Char), cs3)
        | [] => (([] : List Char), cs3)
      some (Json.num ⟨sign ++ intDigits ++ fracPart ++ expPart⟩, cs4)

/-- Test whether `pre` is an initial segment of `cs`; on success return
the remainder. -/
def stripLit : List Char → List Char → Option (List Char)
  | [], cs => some cs
  | p :: ps, c :: cs => if c = p then stripLit ps cs else none
  | _ :: _, [] => none

mutual

/-- JSON value scanner, modelling Python's `json.loads` grammar
(including the non-standard constants `NaN`, `Infinity`, `-Infinity`
that Python accepts by default).  `fuel` only bounds nesting depth;
`loads` supplies enough for any input. -/
def parseValue : Nat → List Char → Option (Json × List Char)
  | 0, _ => none
  | fuel + 1, cs =>
    match skipWs cs with
    | [] => none
    | c :: rest =>
      if c = '"' then
        match parseJString rest with
        | some p => some (Json.str p.1, p.2)
        | none => none
      else if c = '\x7b' then
        match skipWs rest with
        | '\x7d' :: rest2 => some (Json.obj [], rest2)
        | cs2 => parseMembers fuel cs2 []
      else if c = '[' then
        match skipWs rest with
        | ']' :: rest2 => some (Json.arr [], rest2)
        | cs2 => parseElems fuel cs2 []
      else if c = 't' then
        match stripLit ['r', 'u', 'e'] rest with
        | some rest2 => some (Json.bool true, rest2)
        | none => none
      else if c = 'f' then
        match stripLit ['a', 'l', 's', 'e'] rest with
        | some rest2 => some (Json.bool false, rest2)
        | none => none
      else if c = 'n' then
        match stripLit ['u', 'l', 'l'] rest with
        | some rest2 => some (Json.null, rest2)
        | none => none
      else if c = 'N' then
        match stripLit ['a', 'N'] rest with
        | some rest2 => some (Json.num "NaN", rest2)
        | none => none
      else if c = 'I' then
        match stripLit ['n', 'f', 'i', 'n', 'i', 't', 'y'] rest with
        | some rest2 => some (Json.num "Infinity", rest2)
        | none => none
      else if c = '-' then
        match stripLit ['I', 'n', 'f', 'i', 'n', 'i', 't', 'y'] rest with
        | some rest2 => some (Json.num "-Infinity", rest2)
        | none => parseNumber (c :: rest)
      else parseNumber (c :: rest)

/-- Members of a JSON object after the opening brace (nonempty case). -/
def parseMembers : Nat → List Char → List (String × Json) → Option (Json × List Char)
  | 0, _, _ => none
  | fuel + 1, cs, acc =>
    match cs with
    | [] => none
    | c :: rest =>
      if c = '"' then
        match parseJString rest with
        | none => none
        | some (key, rest2) =>
          match skipWs rest2 with
          | [] => none
          | c2 :: rest3 =>
            if c2 = ':' then
              match parseValue fuel (skipWs rest3) with
              | none => none
              | some (v, rest4) =>
                match skipWs rest4 with
                | [] => none
                | c3 :: rest5 =>
                  if c3 = ',' then parseMembers fuel (skipWs rest5) (acc ++ [(key, v)])
                  else if c3 = '\x7d' then some (Json.obj (acc ++ [(key, v)]), rest5)
                  else none
            else none
      else none

/-- Elements of a JSON array after the opening bracket (nonempty case). -/
def parseElems : Nat → List Char → List Json → Option (Json × List Char)
  | 0, _, _ => none
  | fuel + 1, cs, acc =>
    match parseValue fuel cs with
    | none => none
    | some (v, rest) =>
      match skipWs rest with
      | ',' :: rest2 => parseElems fuel (skipWs rest2) (acc ++ [v])
      | ']' :: rest2 => some (Json.arr (acc ++ [v]), rest2)
      | _ => none

end

/-- `json.loads`: skip whitespace, parse one value, require only
whitespace to remain.  The fuel `2 * length + 4` dominates any possible
nesting depth (every two fuel steps consume at least one character). -/
def loads (s : String) : Option Json :=
  match parseValue (2 * s.length + 4) s.data with
  | some (j, rest) => if skipWs rest = [] then some j else none
  | none => none

/-- Lowercase hex digit, as emitted by `json.dumps` escapes. -/
def hexDigitChar (n : Nat) : Char :=
  if n < 10 then Char.ofNat (48 + n) else Char.ofNat (87 + n)

/-- Four-digit hex rendering of `n < 0x10000`. -/
def hex4 (n : Nat) : List Char :=
  [hexDigitChar (n / 4096 % 16), hexDigitChar (n / 256 % 16),
   hexDigitChar (n / 16 % 16), hexDigitChar (n % 16)]

/-- Escape one character the way `json.dumps` (default
`ensure_ascii=True`) renders it inside a string literal: `"` and `\`
and the control shortcuts get two-character escapes, other characters
below `0x20` or at or above `0x7f` get `\uXXXX` (a surrogate pair for
astral characters), and printable ASCII is emitted as itself. -/
def escChar (c : Char) : List Char :=
  if c = '"' then ['\\', '"']
  else if c = '\\' then ['\\', '\\']
  else if c = '\x08' then ['\\', 'b']
  else if c = '\x0c' then ['\\', 'f']
  else if c = '\n' then ['\\', 'n']
  else if c = '\r' then ['\\', 'r']
  else if c = '\t' then ['\\', 't']
  else if c.toNat < 0x20 ∨ 0x7f ≤ c.toNat then
    if c.toNat < 0x10000 then '\\' :: 'u' :: hex4 c.toNat
    else
      '\\' :: 'u' :: hex4 (0xd800 + (c.toNat - 0x10000) / 0x400) ++
        '\\' :: 'u' :: hex4 (0xdc00 + (c.toNat - 0x10000) % 0x400)
  else [c]

/-- Escaped body of a JSON string literal (no quotes). -/
def encBody (cs : List Char) : List Char :=
  cs.foldr (fun c a => escChar c ++ a) []

/-- A full JSON string literal for `s`, quotes included. -/
def encStringChars (s : String) : List Char :=
  '"' :: (encBody s.data ++ ['"'])

mutual

/-- `json.dumps` with Python's default separators `", "` and `": "`,
rendered as a character list. -/
def dumpsChars : Json → List Char
  | .null => "null".data
  | .bool true => "true".data
  | .bool false => "false".data
  | .num lit => lit.data
  | .str s => encStringChars s
  | .arr es => '[' :: (dumpsList es ++ [']'])
  | .obj fs => '\x7b' :: (dumpsFields fs ++ ['\x7d'])

/-- Array elements joined by `", "`. -/
def dumpsList : List Json → List Char
  | [] => []
  | [e] => dumpsChars e
  | e :: es => dumpsChars e ++ ',' :: ' ' :: dumpsList es

/-- Object members `key: value` joined by `", "`. -/
def dumpsFields : List (String × Json) → List Char
  | [] => []
  | [(k, v)] => encStringChars k ++ ':' :: ' ' :: dumpsChars v
  | (k, v) :: fs => encStringChars k ++ ':' :: ' ' :: dumpsChars v ++ ',' :: ' ' :: dumpsFields fs

end

/-- `json.dumps` as a string. -/
def dumps (j : Json) : String := ⟨dumpsChars j⟩

/-- Characters stripped by Python's `str.strip()` (the `str.isspace`
set). -/
def isPyWs (c : Char) : Bool :=
  c = ' ' || c = '\t' || c = '\n' || c = '\x0b' || c = '\x0c' || c = '\r' ||
  c = '\x1c' || c = '\x1d' || c = '\x1e' || c = '\x1f' || c = '\x85' || c = '\xa0' ||
  c = ' ' || (0x2000 ≤ c.toNat && c.toNat ≤ 0x200a) ||
  c = ' ' || c = ' ' || c = ' ' || c = ' ' || c = '　'

/-- `str.strip()`: remove leading and trailing whitespace. -/
def pyStrip (s : String) : String :=
  ⟨((s.data.dropWhile isPyWs).reverse.dropWhile isPyWs).reverse⟩

/-- One transcript entry: `{"role": ..., "content": ...}`, with the
extra `"name"` key that the loop adds on `tool` messages (line 101). -/
structure Message where
  role : String
  content : String
  name : Option String := none
deriving DecidableEq

/-- The behaviour contract sent as the first transcript message
(`SYSTEM_PROMPT`, lines 25-30 of `brain.py`). -/
def SYSTEM_PROMPT : String :=
  "\nYou are Matt’s personal assistant. \nIf you need to call a tool, return JSON like \x7b\"name\": \"...\", \"arguments\": \x7b...\x7d\x7d.\nValid tools:\n- echo(text:str) → str  # repeats whatever you send\n"

/-- The single system message created at process start (line 44). -/
def sysMessage : Message := ⟨"system", SYSTEM_PROMPT, none⟩

/-- The embedding vector returned by the embeddings API.  Its numeric
content is opaque to the loop (stored and forwarded, never inspected),
so the element type is uninterpreted. -/
abbrev EmbVec := List Int

/-- One record in the chroma collection (`collection.add`, lines
54-57): time-derived id, embedding, original text, metadata role. -/
structure MemRecord where
  id : String
  embedding : EmbVec
  document : String
  metaRole : String
deriving DecidableEq

/-- Mutable state of `main`: the transcript plus the memory
collection. -/
structure LoopState where
  messages : List Message
  memory : List MemRecord
deriving DecidableEq

/-- State right after line 44: one system message, empty collection
(the model treats the collection as fresh at process start). -/
def initState : LoopState := ⟨[sysMessage], []⟩

/-- The echo capability (lines 18-20): returns its argument unchanged
(the `asyncio.sleep(0)` yield has no observable effect). -/
def echo (text : String) : String := text

/-- Validated arguments for the echo tool (`class EchoArgs`, lines
15-16). -/
structure EchoArgs where
  text : String
deriving DecidableEq

/-- Keys of the tool registry `TOOLS` (line 22). -/
def TOOLS_keys : List String := ["echo"]

/-- Failures of `schema(**args)` inside the `try` of lines 88-92:
a non-mapping `arguments` value raises `TypeError` at the call, and
pydantic rejects a missing required field or a value of the wrong type
(a `str` field accepts exactly JSON strings). -/
inductive ArgError where
  | notAMapping
  | missingField (field : String)
  | wrongType (field : String)
deriving DecidableEq

/-- `EchoArgs(**args)` (line 89): all-or-nothing validation of the
arguments object against the schema; extra fields are ignored. -/
def validateEchoArgs : Json → Except ArgError EchoArgs
  | Json.obj fields =>
    match objGet fields "text" with
    | some (Json.str s) => .ok ⟨s⟩
    | some _ => .error (.wrongType "text")
    | none => .error (.missingField "text")
  | _ => .error .notAMapping

/-- Uncaught Python exceptions the turn can die with: `payload.get` on
a non-dict (line 81, only `json.JSONDecodeError` is caught at line 76)
and `name not in TOOLS` with an unhashable `name` value (line 82). -/
inductive PyError where
  | attributeError
  | typeError
deriving DecidableEq

/-- Outcome of interpreting one model response (lines 74-87). -/
inductive Classified where
  | plainText (content : String)
  | invalidTool (content : String)
  | toolCall (name : String) (args : Json)

/-- Lines 74-87: `json.loads` (parse failure caught → plain text),
`payload.get("name")` / `payload.get("arguments", {})`, and the
`name not in TOOLS` registry test.  A non-object payload raises
`AttributeError`; an array/object `name` value is unhashable and
raises `TypeError`; both escape the `try` and kill the process. -/
def classify (content : String) : Except PyError Classified :=
  match loads content with
  | none => .ok (.plainText content)
  | some (Json.obj fields) =>
    match objGet fields "name" with
    | some (Json.str n) =>
      if TOOLS_keys.contains n then
        .ok (.toolCall n ((objGet fields "arguments").getD (Json.obj [])))
      else .ok (.invalidTool content)
    | some (Json.arr _) => .error .typeError
    | some (Json.obj _) => .error .typeError
    | _ => .ok (.invalidTool content)
  | some _ => .error .attributeError

/-- Console output events (`print` calls at lines 77, 83, 91, 96). -/
inductive Display where
  | assistantText (content : String)
  | invalidTool (content : String)
  | argError
  | toolResult (result : String)
deriving DecidableEq

/-- Externally observable effects of one turn, populated up to the
point where the turn ends (normally or by an uncaught exception). -/
structure TurnObs where
  embeddedText : Option String := none
  storedRecord : Option MemRecord := none
  promptBlock : Option String := none
  displays : List Display := []
  invoked : Option (String × String) := none
deriving DecidableEq

/-- Result of one loop iteration: the new state (or the uncaught
exception that killed the process) plus the observations made before
that point. -/
structure TurnResult where
  outcome : Except PyError LoopState
  obs : TurnObs

/-- Per-turn inputs supplied by the external collaborators: the console
line, the value of `time.time_ns()`, the embedding returned for the
stripped line, the `documents` field of the chroma query reply (one
ranked list per query embedding), and the content of the model's chat
reply. -/
structure TurnEnv where
  rawLine : String
  nowNs : Nat
  embedding : EmbVec
  hitsDocuments : List (List String)
  assistantContent : String

/-- Line 63: `"\n".join(hits["documents"][0]) if hits["documents"] else ""`. -/
def recalledOf (hits : List (List String)) : String :=
  match hits with
  | [] => ""
  | d :: _ => String.intercalate "\n" d

/-- Lines 66-69: the f-string assembling the augmented prompt block. -/
def promptBlockOf (recalled user : String) : String :=
  "**Most relevant memories**\n" ++ recalled ++ "\n\n**Current message**\n" ++ user

/-- The memory record stored for this turn (lines 54-57). -/
def memRecordOf (env : TurnEnv) : MemRecord :=
  ⟨toString env.nowNs, env.embedding, pyStrip env.rawLine, "user"⟩

/-- The `user`-role message appended for this turn (line 70). -/
def userPromptMsg (env : TurnEnv) : Message :=
  ⟨"user", promptBlockOf (recalledOf env.hitsDocuments) (pyStrip env.rawLine), none⟩

/-- One iteration of the `while True` loop (lines 45-102). -/
def runTurn (env : TurnEnv) (st : LoopState) : TurnResult :=
  let user := pyStrip env.rawLine
  if user = "" then ⟨.ok st, {}⟩
  else
    let record := memRecordOf env
    let prompt_block := promptBlockOf (recalledOf env.hitsDocuments) user
    let st1 : LoopState :=
      ⟨st.messages ++ [⟨"user", prompt_block, none⟩], st.memory ++ [record]⟩
    let baseObs : TurnObs :=
      { embeddedText := some user, storedRecord := some record,
        promptBlock := some prompt_block }
    match classify env.assistantContent with
    | .error e => ⟨.error e, baseObs⟩
    | .ok (.plainText content) =>
      ⟨.ok ⟨st1.messages ++ [⟨"assistant", content, none⟩], st1.memory⟩,
       { baseObs with displays := [.assistantText content] }⟩
    | .ok (.invalidTool content) =>
      ⟨.ok ⟨st1.messages ++ [⟨"assistant", content, none⟩], st1.memory⟩,
       { baseObs with displays := [.invalidTool content] }⟩
    | .ok (.toolCall n args) =>
      match validateEchoArgs args with
      | .error _ => ⟨.ok st1, { baseObs with displays := [.argError] }⟩
      | .ok targs =>
        let result := echo targs.text
        let tool_reply := dumps (Json.obj [("tool", Json.str n), ("result", Json.str result)])
        ⟨.ok ⟨st1.messages ++
            [⟨"assistant", env.assistantContent, none⟩, ⟨"tool", tool_reply, some n⟩],
          st1.memory⟩,
         { baseObs with displays := [.toolResult result], invoked := some (n, result) }⟩

/-- Iterate the loop over a sequence of per-turn inputs; an uncaught
exception ends the run. -/
def runLoop : List TurnEnv → LoopState → Except PyError LoopState
  | [], st => .ok st
  | env :: rest, st =>
    match (runTurn env st).outcome with
    | .ok st' => runLoop rest st'
    | .error e => .error e

/-- States the process can be in at the top of the `while` loop. -/
inductive Reachable : LoopState → Prop where
  | init : Reachable initState
  | step {st st' : LoopState} {env : TurnEnv} {obs : TurnObs} :
      Reachable st → runTurn env st = ⟨.ok st', obs⟩ → Reachable st'

/-- How a turn is dispatched, as a function of the per-turn inputs
alone (the branch taken never depends on the state). -/
inductive TurnKind where
  | emptyInput
  | plainText
  | invalidTool
  | toolSuccess
  | argError
  | crash
deriving DecidableEq

/-- Which branch of the loop body the turn takes. -/
def turnKind (env : TurnEnv) : TurnKind :=
  if pyStrip env.rawLine = "" then .emptyInput
  else
    match classify env.assistantContent with
    | .error _ => .crash
    | .ok (.plainText _) => .plainText
    | .ok (.invalidTool _) => .invalidTool
    | .ok (.toolCall _ args) =>
      match validateEchoArgs args with
      | .ok _ => .toolSuccess
      | .error _ => .argError

/-- Observations common to every non-empty turn: the stripped line is
embedded, one record is stored, one prompt block is assembled. -/
def baseObsOf (env : TurnEnv) : TurnObs :=
  { embeddedText := some (pyStrip env.rawLine),
    storedRecord := some (memRecordOf env),
    promptBlock := some (promptBlockOf (recalledOf env.hitsDocuments) (pyStrip env.rawLine)) }

/-- Branch lemma: empty (or whitespace-only) console line. -/
theorem runTurn_empty (env : TurnEnv) (st : LoopState)
    (h : pyStrip env.rawLine = "") : runTurn env st = ⟨.ok st, {}⟩ := by
  simp only [runTurn, if_pos h]

/-- Branch lemma: the model response kills the process (non-object
payload, or unhashable tool name). -/
theorem runTurn_crash (env : TurnEnv) (st : LoopState) (e : PyError)
    (hne : pyStrip env.rawLine ≠ "")
    (hc : classify env.assistantContent = .error e) :
    runTurn env st = ⟨.error e, baseObsOf env⟩ := by
  simp only [runTurn, hc, if_neg hne, baseObsOf]

/-- Branch lemma: plain-text response. -/
theorem runTurn_plainText (env : TurnEnv) (st : LoopState) (content : String)
    (hne : pyStrip env.rawLine ≠ "")
    (hc : classify env.assistantContent = .ok (.plainText content)) :
    runTurn env st =
      ⟨.ok ⟨st.messages ++ [userPromptMsg env, ⟨"assistant", content, none⟩],
          st.memory ++ [memRecordOf env]⟩,
        { baseObsOf env with displays := [.assistantText content] }⟩ := by
  simp only [runTurn, hc, if_neg hne, baseObsOf, userPromptMsg, List.append_assoc,
    List.cons_append, List.nil_append]

/-- Branch lemma: invalid-tool response. -/
theorem runTurn_invalidTool (env : TurnEnv) (st : LoopState) (content : String)
    (hne : pyStrip env.rawLine ≠ "")
    (hc : classify env.assistantContent = .ok (.invalidTool content)) :
    runTurn env st =
      ⟨.ok ⟨st.messages ++ [userPromptMsg env, ⟨"assistant", content, none⟩],
          st.memory ++ [memRecordOf env]⟩,
        { baseObsOf env with displays := [.invalidTool content] }⟩ := by
  simp only [runTurn, hc, if_neg hne, baseObsOf, userPromptMsg, List.append_assoc,
    List.cons_append, List.nil_append]

/-- Branch lemma: tool call whose arguments fail validation. -/
theorem runTurn_argError (env : TurnEnv) (st : LoopState) (n : String) (args : Json)
    (e : ArgError) (hne : pyStrip env.rawLine ≠ "")
    (hc : classify env.assistantContent = .ok (.toolCall n args))
    (hv : validateEchoArgs args = .error e) :
    runTurn env st =
      ⟨.ok ⟨st.messages ++ [userPromptMsg env], st.memory ++ [memRecordOf env]⟩,
        { baseObsOf env with displays := [.argError] }⟩ := by
  simp only [runTurn, hc, hv, if_neg hne, baseObsOf, userPromptMsg]

/-- Branch lemma: tool call that validates and runs. -/
theorem runTurn_toolSuccess (env : TurnEnv) (st : LoopState) (n : String) (args : Json)
    (targs : EchoArgs) (hne : pyStrip env.rawLine ≠ "")
    (hc : classify env.assistantContent = .ok (.toolCall n args))
    (hv : validateEchoArgs args = .ok targs) :
    runTurn env st =
      ⟨.ok ⟨st.messages ++ [userPromptMsg env,
            ⟨"assistant", env.assistantContent, none⟩,
            ⟨"tool", dumps (Json.obj [("tool", Json.str n), ("result", Json.str targs.text)]),
              some n⟩],
          st.memory ++ [memRecordOf env]⟩,
        { baseObsOf env with
          displays := [.toolResult targs.text]
          invoked := some (n, targs.text) }⟩ := by
  simp only [runTurn, hc, hv, if_neg hne, baseObsOf, userPromptMsg, echo, List.append_assoc,
    List.cons_append, List.nil_append]

/-- Every successfully completed turn only appends to the transcript,
and every appended message has role `user`, `assistant` or `tool`. -/
theorem runTurn_messages_append (env : TurnEnv) (st st' : LoopState)
    (h : (runTurn env st).outcome = Except.ok st') :
    ∃ suf, st'.messages = st.messages ++ suf ∧
      ∀ m ∈ suf, m.role = "user" ∨ m.role = "assistant" ∨ m.role = "tool" := by
  by_cases hu : pyStrip env.rawLine = ""
  · rw [runTurn_empty env st hu] at h
    simp only [Except.ok.injEq] at h
    subst h
    exact ⟨[], by simp⟩
  · rcases hclass : classify env.assistantContent with e | c
    · rw [runTurn_crash env st e hu hclass] at h
      simp at h
    · rcases c with content | content | ⟨n, args⟩
      · rw [runTurn_plainText env st content hu hclass] at h
        simp only [Except.ok.injEq] at h
        subst h
        exact ⟨[userPromptMsg env, ⟨"assistant", content, none⟩], by simp [userPromptMsg]⟩
      · rw [runTurn_invalidTool env st content hu hclass] at h
        simp only [Except.ok.injEq] at h
        subst h
        exact ⟨[userPromptMsg env, ⟨"assistant", content, none⟩], by simp [userPromptMsg]⟩
      · rcases hv : validateEchoArgs args with e | targs
        · rw [runTurn_argError env st n args e hu hclass hv] at h
          simp only [Except.ok.injEq] at h
          subst h
          exact ⟨[userPromptMsg env], by simp [userPromptMsg]⟩
        · rw [runTurn_toolSuccess env st n args targs hu hclass hv] at h
          simp only [Except.ok.injEq] at h
          subst h
          exact ⟨[userPromptMsg env, ⟨"assistant", env.assistantContent, none⟩,
            ⟨"tool", dumps (Json.obj [("tool", Json.str n), ("result", Json.str targs.text)]),
              some n⟩], by simp [userPromptMsg]⟩

/-- Structural invariant carried through the loop: the transcript is
the system message followed by non-system messages. -/
theorem reachable_messages_shape (st : LoopState) (h : Reachable st) :
    ∃ tl, st.messages = sysMessage :: tl ∧ ∀ m ∈ tl, m.role ≠ "system" := by
  induction h with
  | init => exact ⟨[], rfl, by simp⟩
  | step hr hstep ih =>
    obtain ⟨tl, htl, hroles⟩ := ih
    rename_i st₀ st₁ env obs
    have hout : (runTurn env st₀).outcome = Except.ok st₁ := by rw [hstep]
    obtain ⟨suf, hsuf, hsufroles⟩ := runTurn_messages_append env st₀ st₁ hout
    refine ⟨tl ++ suf, by rw [hsuf, htl]; simp, ?_⟩
    intro m hm
    rcases List.mem_append.mp hm with hm | hm
    · exact hroles m hm
    · rcases hsufroles m hm with h1 | h1 | h1 <;> rw [h1] <;> decide

/-- Claim C1: in every reachable state of the conversation loop the
transcript begins with exactly one system-role message (the behaviour
contract created at process start), and every completed turn only
appends messages to the end of the transcript, never modifying,
removing or reordering existing ones. -/
theorem transcript_system_head_append_only (st : LoopState) (h : Reachable st) :
    st.messages.head? = some sysMessage ∧
    (st.messages.filter fun m => m.role = "system").length = 1 ∧
    ∀ env st', (runTurn env st).outcome = Except.ok st' →
      ∃ suf, st'.messages = st.messages ++ suf := by
  obtain ⟨tl, htl, hroles⟩ := reachable_messages_shape st h
  refine ⟨by rw [htl]; rfl, ?_, ?_⟩
  · rw [htl]
    have hnil : tl.filter (fun m => decide (m.role = "system")) = [] := by
      rw [List.filter_eq_nil_iff]
      intro m hm
      simp [hroles m hm]
    simp [List.filter_cons, hnil, sysMessage]
  · intro env st' hok
    obtain ⟨suf, hsuf, _⟩ := runTurn_messages_append env st st' hok
    exact ⟨suf, hsuf⟩

/-- Witness for C1 at the initial state. -/
theorem transcript_system_head_append_only_witness :
    initState.messages.head? = some sysMessage ∧
    (initState.messages.filter fun m => m.role = "system").length = 1 :=
  ⟨(transcript_system_head_append_only initState Reachable.init).1,
   (transcript_system_head_append_only initState Reachable.init).2.1⟩

/-- On every non-empty turn, regardless of how the model response is
dispatched, the loop embeds the stripped line, stores one record whose
document is the stripped line, and assembles one prompt block. -/
theorem runTurn_obs_core (env : TurnEnv) (st : LoopState)
    (hne : pyStrip env.rawLine ≠ "") :
    (runTurn env st).obs.embeddedText = some (pyStrip env.rawLine) ∧
    (runTurn env st).obs.storedRecord = some (memRecordOf env) ∧
    (runTurn env st).obs.promptBlock =
      some (promptBlockOf (recalledOf env.hitsDocuments) (pyStrip env.rawLine)) := by
  rcases hc : classify env.assistantContent with e | c
  · rw [runTurn_crash env st e hne hc]
    exact ⟨rfl, rfl, rfl⟩
  · rcases c with content | content | ⟨n, args⟩
    · rw [runTurn_plainText env st content hne hc]
      exact ⟨rfl, rfl, rfl⟩
    · rw [runTurn_invalidTool env st content hne hc]
      exact ⟨rfl, rfl, rfl⟩
    · rcases hv : validateEchoArgs args with e | targs
      · rw [runTurn_argError env st n args e hne hc hv]
        exact ⟨rfl, rfl, rfl⟩
      · rw [runTurn_toolSuccess env st n args targs hne hc hv]
        exact ⟨rfl, rfl, rfl⟩

/-- Claim C10: the loop strips the console line before any processing:
a whitespace-only line is treated exactly like an empty one (no
embedding, no stored record, no transcript change), and otherwise the
embedded text, the stored record's document, and the current message
of the prompt block are all the stripped text. -/
theorem console_line_stripped_first (env : TurnEnv) (st : LoopState) :
    (pyStrip env.rawLine = "" → runTurn env st = ⟨.ok st, {}⟩) ∧
    (pyStrip env.rawLine ≠ "" →
      (runTurn env st).obs.embeddedText = some (pyStrip env.rawLine) ∧
      ((runTurn env st).obs.storedRecord).map (fun r => r.document) =
        some (pyStrip env.rawLine) ∧
      (runTurn env st).obs.promptBlock =
        some (promptBlockOf (recalledOf env.hitsDocuments) (pyStrip env.rawLine))) := by
  refine ⟨fun h => runTurn_empty env st h, fun hne => ?_⟩
  obtain ⟨h1, h2, h3⟩ := runTurn_obs_core env st hne
  exact ⟨h1, by rw [h2]; rfl, h3⟩

/-- Witness for C10: a concrete whitespace-only line and a concrete
padded line. -/
theorem console_line_stripped_first_witness :
    runTurn ⟨" \t ", 3, [5], [], "x"⟩ initState = ⟨.ok initState, {}⟩ ∧
    (runTurn ⟨"  hi there ", 7, [2], [], "sure"⟩ initState).obs.embeddedText =
      some "hi there" := by
  constructor
  · exact (console_line_stripped_first ⟨" \t ", 3, [5], [], "x"⟩ initState).1 (by decide)
  · exact ((console_line_stripped_first ⟨"  hi there ", 7, [2], [], "sure"⟩ initState).2
      (by decide)).1

/-- Counterexample to claim C4 as stated: with an empty recall result
the assembled block is NOT just the current message — the memories
header and its delimiters are still present (lines 66-69 have no
empty-result case). -/
theorem prompt_block_empty_recall_counterexample :
    (runTurn ⟨"hi", 0, [1], [[]], "ok"⟩ initState).obs.promptBlock =
      some "**Most relevant memories**\n\n\n**Current message**\nhi" ∧
    "**Most relevant memories**\n\n\n**Current message**\nhi" ≠ "hi" :=
  ⟨rfl, by decide⟩

/-- Claim C4 (amended): the block always consists of the memories
header, the recalled strings joined by newlines in the order given,
a blank-line delimiter, the current-message header, and the stripped
current message; when the recall result is empty, the memories section
is empty but the headers and delimiters remain (the block is not just
the current message). -/
theorem prompt_block_layout (env : TurnEnv) (st : LoopState)
    (hne : pyStrip env.rawLine ≠ "") :
    (runTurn env st).obs.promptBlock =
      some ("**Most relevant memories**\n" ++ recalledOf env.hitsDocuments ++
        "\n\n**Current message**\n" ++ pyStrip env.rawLine) ∧
    (∀ d rest, env.hitsDocuments = d :: rest →
      recalledOf env.hitsDocuments = String.intercalate "\n" d) ∧
    (recalledOf env.hitsDocuments = "" →
      (runTurn env st).obs.promptBlock =
        some ("**Most relevant memories**\n\n\n**Current message**\n" ++
          pyStrip env.rawLine)) := by
  obtain ⟨-, -, h3⟩ := runTurn_obs_core env st hne
  refine ⟨h3, ?_, ?_⟩
  · intro d rest hd
    rw [recalledOf.eq_def, hd]
  · intro hrec
    rw [h3, promptBlockOf, hrec]
    rfl

/-- Witness for the amended C4 at a concrete turn with one recalled
document and at a concrete turn with empty recall. -/
theorem prompt_block_layout_witness :
    (runTurn ⟨"hi", 0, [1], [["milk", "eggs"]], "ok"⟩ initState).obs.promptBlock =
      some "**Most relevant memories**\nmilk\neggs\n\n**Current message**\nhi" ∧
    (runTurn ⟨"hi", 0, [1], [[]], "ok"⟩ initState).obs.promptBlock =
      some "**Most relevant memories**\n\n\n**Current message**\nhi" := by
  constructor
  · exact (prompt_block_layout ⟨"hi", 0, [1], [["milk", "eggs"]], "ok"⟩ initState
      (by decide)).1
  · exact (prompt_block_layout ⟨"hi", 0, [1], [[]], "ok"⟩ initState (by decide)).2.2 rfl

/-- Counterexample to claim C3 as stated: `"[1, 2]"` is valid JSON but
not a JSON object; instead of degrading to PlainText the turn dies
with an uncaught `AttributeError` (only `json.JSONDecodeError` is
caught at line 76, and `payload.get` at line 81 has no fallback),
displaying nothing and appending nothing. -/
theorem malformed_response_counterexample :
    loads "[1, 2]" = some (Json.arr [Json.num "1", Json.num "2"]) ∧
    (runTurn ⟨"hi", 0, [1], [], "[1, 2]"⟩ initState).outcome =
      Except.error PyError.attributeError ∧
    (runTurn ⟨"hi", 0, [1], [], "[1, 2]"⟩ initState).obs.displays = [] :=
  ⟨rfl, rfl, rfl⟩

/-- Claim C3 (amended): a model response whose content fails JSON
parsing is classified PlainText — the raw content is displayed, one
assistant message is appended, and the loop continues; but a response
that parses as valid JSON of non-object shape (array, string, number,
boolean or null) raises an uncaught `AttributeError` that ends the
process instead. -/
theorem unparseable_response_plaintext (env : TurnEnv) (st : LoopState)
    (hne : pyStrip env.rawLine ≠ "") :
    (loads env.assistantContent = none →
      runTurn env st =
        ⟨.ok ⟨st.messages ++ [userPromptMsg env,
            ⟨"assistant", env.assistantContent, none⟩],
          st.memory ++ [memRecordOf env]⟩,
        { baseObsOf env with displays := [.assistantText env.assistantContent] }⟩) ∧
    (∀ j, loads env.assistantContent = some j → (∀ fs, j ≠ Json.obj fs) →
      (runTurn env st).outcome = Except.error PyError.attributeError) := by
  constructor
  · intro hl
    have hc : classify env.assistantContent = .ok (.plainText env.assistantContent) := by
      rw [classify.eq_def, hl]
    exact runTurn_plainText env st env.assistantContent hne hc
  · intro j hl hobj
    have hc : classify env.assistantContent = .error PyError.attributeError := by
      rw [classify.eq_def, hl]
      cases j with
      | obj fs => exact absurd rfl (hobj fs)
      | null => rfl
      | bool b => rfl
      | num lit => rfl
      | str s => rfl
      | arr es => rfl
    rw [runTurn_crash env st PyError.attributeError hne hc]

/-- Witness for the amended C3: a prose response and a JSON-array
response at concrete turns. -/
theorem unparseable_response_plaintext_witness :
    runTurn ⟨"hi", 0, [1], [], "sure thing"⟩ initState =
      ⟨.ok ⟨initState.messages ++ [userPromptMsg ⟨"hi", 0, [1], [], "sure thing"⟩,
          ⟨"assistant", "sure thing", none⟩],
        initState.memory ++ [memRecordOf ⟨"hi", 0, [1], [], "sure thing"⟩]⟩,
      { baseObsOf ⟨"hi", 0, [1], [], "sure thing"⟩ with
        displays := [.assistantText "sure thing"] }⟩ ∧
    (runTurn ⟨"hi", 0, [1], [], "[1, 2]"⟩ initState).outcome =
      Except.error PyError.attributeError := by
  constructor
  · exact (unparseable_response_plaintext ⟨"hi", 0, [1], [], "sure thing"⟩ initState
      (by decide)).1 rfl
  · exact (unparseable_response_plaintext ⟨"hi", 0, [1], [], "[1, 2]"⟩ initState
      (by decide)).2 (Json.arr [Json.num "1", Json.num "2"]) rfl
      (fun fs h => Json.noConfusion h)

/-- Claim C5: for a call to the echo tool, argument validation rejects
a numeric value for the required string field `text` with an argument
error, and accepts any string value; an error is raised in the first
case and only in the first case. -/
theorem echo_args_validation (lit s : String) :
    validateEchoArgs (Json.obj [("text", Json.num lit)]) =
      Except.error (ArgError.wrongType "text") ∧
    validateEchoArgs (Json.obj [("text", Json.str s)]) = Except.ok ⟨s⟩ := by
  constructor
  · rfl
  · rfl

/-- Claim C6: when a tool call names a registered tool but its
arguments fail schema validation, the capability is never invoked, the
error is displayed, nothing is appended to the transcript after the
error (the turn keeps only the user-prompt message appended before the
model was called), and the loop carries on instead of dying. -/
theorem arg_error_aborts_before_invocation (env : TurnEnv) (st : LoopState)
    (n : String) (args : Json) (e : ArgError)
    (hne : pyStrip env.rawLine ≠ "")
    (hc : classify env.assistantContent = .ok (.toolCall n args))
    (hv : validateEchoArgs args = .error e) :
    (runTurn env st).obs.invoked = none ∧
    (runTurn env st).obs.displays = [Display.argError] ∧
    (runTurn env st).outcome =
      Except.ok ⟨st.messages ++ [userPromptMsg env], st.memory ++ [memRecordOf env]⟩ := by
  rw [runTurn_argError env st n args e hne hc hv]
  exact ⟨rfl, rfl, rfl⟩

/-- Witness for C6: the model asks for echo with `"text": 5`. -/
theorem arg_error_aborts_before_invocation_witness :
    (runTurn ⟨"hi", 7, [2], [],
        "\x7b\"name\": \"echo\", \"arguments\": \x7b\"text\": 5\x7d\x7d"⟩ initState).obs.invoked =
      none ∧
    (runTurn ⟨"hi", 7, [2], [],
        "\x7b\"name\": \"echo\", \"arguments\": \x7b\"text\": 5\x7d\x7d"⟩ initState).outcome =
      Except.ok ⟨[sysMessage,
        ⟨"user", "**Most relevant memories**\n\n\n**Current message**\nhi", none⟩],
        [⟨"7", [2], "hi", "user"⟩]⟩ := by
  have h := arg_error_aborts_before_invocation
    ⟨"hi", 7, [2], [], "\x7b\"name\": \"echo\", \"arguments\": \x7b\"text\": 5\x7d\x7d"⟩
    initState "echo" (Json.obj [("text", Json.num "5")]) (ArgError.wrongType "text")
    (by decide) rfl rfl
  exact ⟨h.1, h.2.2⟩

/-- Counterexample to claim C7 as stated: `{"name": []}` has a `name`
that is not a key of the registry, but instead of InvalidTool handling
the turn dies: the JSON array is unhashable, so `name not in TOOLS`
(line 82) raises an uncaught `TypeError` — nothing is displayed and
nothing is appended. -/
theorem unhashable_tool_name_counterexample :
    loads "\x7b\"name\": []\x7d" = some (Json.obj [("name", Json.arr [])]) ∧
    (runTurn ⟨"hi", 0, [1], [], "\x7b\"name\": []\x7d"⟩ initState).outcome =
      Except.error PyError.typeError ∧
    (runTurn ⟨"hi", 0, [1], [], "\x7b\"name\": []\x7d"⟩ initState).obs.displays = [] :=
  ⟨rfl, rfl, rfl⟩

/-- Claim C7 (amended): for an object payload, when `name` is absent,
a string that is not a registry key, or a non-string hashable scalar
(null, boolean, number), the response is classified InvalidTool and
handled like PlainText (raw content displayed, exactly one assistant
message appended, no tool executed); when `name` is a registered
tool's name the response is classified ToolCall carrying that name and
the `arguments` value, defaulting to an empty mapping when absent.  (A
`name` that is a JSON array or object instead raises an uncaught
`TypeError` — see the counterexample.) -/
theorem response_interpreter_object_payload (content : String)
    (fields : List (String × Json)) (hl : loads content = some (Json.obj fields)) :
    ((objGet fields "name" = none ∨
      (∃ n, objGet fields "name" = some (Json.str n) ∧ n ∉ TOOLS_keys) ∨
      objGet fields "name" = some Json.null ∨
      (∃ b, objGet fields "name" = some (Json.bool b)) ∨
      (∃ lit, objGet fields "name" = some (Json.num lit))) →
      classify content = .ok (.invalidTool content) ∧
      ∀ env st, env.assistantContent = content → pyStrip env.rawLine ≠ "" →
        runTurn env st =
          ⟨.ok ⟨st.messages ++ [userPromptMsg env, ⟨"assistant", content, none⟩],
            st.memory ++ [memRecordOf env]⟩,
          { baseObsOf env with displays := [.invalidTool content] }⟩) ∧
    (∀ n, objGet fields "name" = some (Json.str n) → n ∈ TOOLS_keys →
      classify content = .ok (.toolCall n ((objGet fields "arguments").getD (Json.obj [])))) := by
  constructor
  · intro hname
    have hc : classify content = .ok (.invalidTool content) := by
      rcases hname with h | ⟨n, h, hn⟩ | h | ⟨b, h⟩ | ⟨lit, h⟩
      · simp only [classify, hl, h]
      · have hcont : TOOLS_keys.contains n = false := by
          simpa using hn
        simp only [classify, hl, h, hcont]
        simp
      · simp only [classify, hl, h]
      · simp only [classify, hl, h]
      · simp only [classify, hl, h]
    refine ⟨hc, fun env st hcontent hne => ?_⟩
    subst hcontent
    exact runTurn_invalidTool env st env.assistantContent hne hc
  · intro n hn hmem
    have hcont : TOOLS_keys.contains n = true := by
      simpa using hmem
    simp only [classify, hl, hn, hcont]
    simp

/-- Witness for the amended C7: an unknown tool name degrades to
InvalidTool handling, and a bare `{"name": "echo"}` classifies as a
ToolCall with the arguments defaulted to an empty mapping. -/
theorem response_interpreter_object_payload_witness :
    classify "\x7b\"name\": \"nope\", \"arguments\": \x7b\x7d\x7d" =
      .ok (.invalidTool "\x7b\"name\": \"nope\", \"arguments\": \x7b\x7d\x7d") ∧
    classify "\x7b\"name\": \"echo\"\x7d" =
      .ok (.toolCall "echo" (Json.obj [])) := by
  constructor
  · exact ((response_interpreter_object_payload
      "\x7b\"name\": \"nope\", \"arguments\": \x7b\x7d\x7d"
      [("name", Json.str "nope"), ("arguments", Json.obj [])] rfl).1
      (Or.inr (Or.inl ⟨"nope", rfl, by decide⟩))).1
  · exact (response_interpreter_object_payload "\x7b\"name\": \"echo\"\x7d"
      [("name", Json.str "echo")] rfl).2 "echo" rfl (by decide)

/-- Claim C2: when the model response parses as an object whose `name`
names a registered tool and whose arguments validate, the loop invokes
the capability (echo returns its argument unchanged) and appends,
after the turn's user-prompt message, exactly two messages in order:
the assistant message carrying the raw payload, then the tool message
carrying the serialized result; in particular for the payload
`{"name": "echo", "arguments": {"text": "hello"}}` the result is
`"hello"` and the tool message content is
`{"tool": "echo", "result": "hello"}`. -/
theorem tool_call_success_appends (env : TurnEnv) (st : LoopState)
    (fields : List (String × Json)) (n : String) (targs : EchoArgs)
    (hne : pyStrip env.rawLine ≠ "")
    (hl : loads env.assistantContent = some (Json.obj fields))
    (hn : objGet fields "name" = some (Json.str n))
    (hreg : n ∈ TOOLS_keys)
    (hv : validateEchoArgs ((objGet fields "arguments").getD (Json.obj [])) = .ok targs) :
    echo targs.text = targs.text ∧
    (runTurn env st).obs.invoked = some (n, targs.text) ∧
    (runTurn env st).outcome = Except.ok
      ⟨st.messages ++ [userPromptMsg env,
        ⟨"assistant", env.assistantContent, none⟩,
        ⟨"tool", dumps (Json.obj [("tool", Json.str n), ("result", Json.str targs.text)]),
          some n⟩],
       st.memory ++ [memRecordOf env]⟩ ∧
    (env.assistantContent = "\x7b\"name\": \"echo\", \"arguments\": \x7b\"text\": \"hello\"\x7d\x7d" →
      n = "echo" ∧ targs.text = "hello" ∧
      dumps (Json.obj [("tool", Json.str n), ("result", Json.str targs.text)]) =
        "\x7b\"tool\": \"echo\", \"result\": \"hello\"\x7d") := by
  have hcont : TOOLS_keys.contains n = true := by
    simpa using hreg
  have hc : classify env.assistantContent =
      .ok (.toolCall n ((objGet fields "arguments").getD (Json.obj []))) := by
    simp only [classify, hl, hn, hcont]
    simp
  have hrun := runTurn_toolSuccess env st n _ targs hne hc hv
  refine ⟨rfl, by rw [hrun], by rw [hrun], ?_⟩
  intro hsc
  rw [hsc] at hl
  have h0 : loads "\x7b\"name\": \"echo\", \"arguments\": \x7b\"text\": \"hello\"\x7d\x7d" =
      some (Json.obj [("name", Json.str "echo"),
        ("arguments", Json.obj [("text", Json.str "hello")])]) := rfl
  rw [h0] at hl
  simp only [Option.some.injEq, Json.obj.injEq] at hl
  subst hl
  have hn' : some (Json.str "echo") = some (Json.str n) := hn
  simp only [Option.some.injEq, Json.str.injEq] at hn'
  subst hn'
  have hv' : Except.ok (⟨"hello"⟩ : EchoArgs) = Except.ok targs := hv
  simp only [Except.ok.injEq] at hv'
  subst hv'
  exact ⟨rfl, rfl, rfl⟩

/-- Witness for C2: the spec's echo scenario run at a concrete turn. -/
theorem tool_call_success_appends_witness :
    (runTurn ⟨"hi", 42, [1], [["hi"]],
        "\x7b\"name\": \"echo\", \"arguments\": \x7b\"text\": \"hello\"\x7d\x7d"⟩
      initState).obs.invoked = some ("echo", "hello") ∧
    (runTurn ⟨"hi", 42, [1], [["hi"]],
        "\x7b\"name\": \"echo\", \"arguments\": \x7b\"text\": \"hello\"\x7d\x7d"⟩
      initState).outcome = Except.ok
      ⟨[sysMessage,
        ⟨"user", "**Most relevant memories**\nhi\n\n**Current message**\nhi", none⟩,
        ⟨"assistant", "\x7b\"name\": \"echo\", \"arguments\": \x7b\"text\": \"hello\"\x7d\x7d", none⟩,
        ⟨"tool", "\x7b\"tool\": \"echo\", \"result\": \"hello\"\x7d", some "echo"⟩],
       [⟨"42", [1], "hi", "user"⟩]⟩ := by
  have h := tool_call_success_appends
    ⟨"hi", 42, [1], [["hi"]],
      "\x7b\"name\": \"echo\", \"arguments\": \x7b\"text\": \"hello\"\x7d\x7d"⟩
    initState
    [("name", Json.str "echo"), ("arguments", Json.obj [("text", Json.str "hello")])]
    "echo" ⟨"hello"⟩ (by decide) rfl rfl (by decide) rfl
  exact ⟨h.2.1, h.2.2.1⟩

/-- The dispatch branch taken on an empty line. -/
theorem turnKind_empty (env : TurnEnv) (hu : pyStrip env.rawLine = "") :
    turnKind env = .emptyInput := by
  simp only [turnKind, if_pos hu]

/-- The dispatch branch as a function of the classification result. -/
theorem turnKind_of_classify (env : TurnEnv) (hu : ¬pyStrip env.rawLine = "") :
    (∀ e, classify env.assistantContent = .error e → turnKind env = .crash) ∧
    (∀ content, classify env.assistantContent = .ok (.plainText content) →
      turnKind env = .plainText) ∧
    (∀ content, classify env.assistantContent = .ok (.invalidTool content) →
      turnKind env = .invalidTool) ∧
    (∀ n args e, classify env.assistantContent = .ok (.toolCall n args) →
      validateEchoArgs args = .error e → turnKind env = .argError) ∧
    (∀ n args targs, classify env.assistantContent = .ok (.toolCall n args) →
      validateEchoArgs args = .ok targs → turnKind env = .toolSuccess) := by
  refine ⟨?_, ?_, ?_, ?_, ?_⟩
  · intro e hc
    simp only [turnKind, if_neg hu, hc]
  · intro content hc
    simp only [turnKind, if_neg hu, hc]
  · intro content hc
    simp only [turnKind, if_neg hu, hc]
  · intro n args e hc hv
    simp only [turnKind, if_neg hu, hc, hv]
  · intro n args targs hc hv
    simp only [turnKind, if_neg hu, hc, hv]

/-- Transcript growth per dispatch branch: PlainText and InvalidTool
turns append two messages, a successful tool call appends three. -/
theorem runTurn_kind_delta (env : TurnEnv) (st : LoopState) :
    (turnKind env = .plainText ∨ turnKind env = .invalidTool →
      ∃ st', (runTurn env st).outcome = Except.ok st' ∧
        st'.messages.length = st.messages.length + 2) ∧
    (turnKind env = .toolSuccess →
      ∃ st', (runTurn env st).outcome = Except.ok st' ∧
        st'.messages.length = st.messages.length + 3) := by
  by_cases hu : pyStrip env.rawLine = ""
  · rw [turnKind_empty env hu]
    constructor
    · intro h
      rcases h with h | h <;> cases h
    · intro h
      cases h
  · obtain ⟨hcr, hpl, hin, hae, hts⟩ := turnKind_of_classify env hu
    rcases hc : classify env.assistantContent with e | c
    · rw [hcr e hc]
      constructor
      · intro h
        rcases h with h | h <;> cases h
      · intro h
        cases h
    · rcases c with content | content | ⟨n, args⟩
      · rw [hpl content hc]
        constructor
        · intro h
          refine ⟨_, by rw [runTurn_plainText env st content hu hc], ?_⟩
          simp
        · intro h
          cases h
      · rw [hin content hc]
        constructor
        · intro h
          refine ⟨_, by rw [runTurn_invalidTool env st content hu hc], ?_⟩
          simp
        · intro h
          cases h
      · rcases hv : validateEchoArgs args with e | targs
        · rw [hae n args e hc hv]
          constructor
          · intro h
            rcases h with h | h <;> cases h
          · intro h
            cases h
        · rw [hts n args targs hc hv]
          constructor
          · intro h
            rcases h with h | h <;> cases h
          · intro h
            refine ⟨_, by rw [runTurn_toolSuccess env st n args targs hu hc hv], ?_⟩
            simp

/-- Length accounting over a run, generalized over the start state. -/
theorem runLoop_length_general :
    ∀ (envs : List TurnEnv),
      (∀ e ∈ envs, turnKind e = .plainText ∨ turnKind e = .invalidTool ∨
        turnKind e = .toolSuccess) →
      ∀ st : LoopState, ∃ st', runLoop envs st = Except.ok st' ∧
        st'.messages.length = st.messages.length +
          (envs.map fun e => if turnKind e = TurnKind.toolSuccess then 3 else 2).sum := by
  intro envs
  induction envs with
  | nil =>
    intro _ st
    exact ⟨st, rfl, by simp⟩
  | cons e rest ih =>
    intro h st
    have he := h e (by simp)
    have hrest : ∀ x ∈ rest, turnKind x = .plainText ∨ turnKind x = .invalidTool ∨
        turnKind x = .toolSuccess := fun x hx => h x (by simp [hx])
    rcases he with hk | hk | hk
    · obtain ⟨st1, hout, hlen⟩ := (runTurn_kind_delta e st).1 (Or.inl hk)
      obtain ⟨st', hrun, hlen'⟩ := ih hrest st1
      refine ⟨st', ?_, ?_⟩
      · simp only [runLoop, hout]
        exact hrun
      · rw [hlen', hlen]
        simp only [List.map_cons, List.sum_cons, hk]
        have : (if TurnKind.plainText = TurnKind.toolSuccess then 3 else 2) = 2 := rfl
        omega
    · obtain ⟨st1, hout, hlen⟩ := (runTurn_kind_delta e st).1 (Or.inr hk)
      obtain ⟨st', hrun, hlen'⟩ := ih hrest st1
      refine ⟨st', ?_, ?_⟩
      · simp only [runLoop, hout]
        exact hrun
      · rw [hlen', hlen]
        simp only [List.map_cons, List.sum_cons, hk]
        have : (if TurnKind.invalidTool = TurnKind.toolSuccess then 3 else 2) = 2 := rfl
        omega
    · obtain ⟨st1, hout, hlen⟩ := (runTurn_kind_delta e st).2 hk
      obtain ⟨st', hrun, hlen'⟩ := ih hrest st1
      refine ⟨st', ?_, ?_⟩
      · simp only [runLoop, hout]
        exact hrun
      · rw [hlen', hlen]
        simp only [List.map_cons, List.sum_cons, hk]
        have : (if TurnKind.toolSuccess = TurnKind.toolSuccess then 3 else 2) = 3 := rfl
        simp only [hk] at this
        omega

/-- Claim C8: starting from the initial transcript (one system
message), a run of N completed turns in which every turn is PlainText,
InvalidTool, or a successful ToolCall ends with transcript length
`1 + Σ (2 or 3)`: each PlainText or InvalidTool turn contributes 2
(user-prompt + assistant), each successful ToolCall turn contributes 3
(user-prompt + assistant + tool). -/
theorem transcript_length_after_turns (envs : List TurnEnv)
    (h : ∀ e ∈ envs, turnKind e = .plainText ∨ turnKind e = .invalidTool ∨
      turnKind e = .toolSuccess) :
    ∃ st, runLoop envs initState = Except.ok st ∧
      st.messages.length =
        1 + (envs.map fun e => if turnKind e = TurnKind.toolSuccess then 3 else 2).sum := by
  obtain ⟨st, hrun, hlen⟩ := runLoop_length_general envs h initState
  exact ⟨st, hrun, by rw [hlen]; rfl⟩

/-- Witness for C8: a two-turn run (one PlainText turn, one successful
echo ToolCall) ends with `1 + 2 + 3 = 6` messages. -/
theorem transcript_length_after_turns_witness :
    ∃ st, runLoop [⟨"hello", 7, [2], [], "sure thing"⟩,
      ⟨"hi", 42, [1], [["hi"]],
        "\x7b\"name\": \"echo\", \"arguments\": \x7b\"text\": \"hello\"\x7d\x7d"⟩]
      initState = Except.ok st ∧
    st.messages.length = 6 := by
  obtain ⟨st, hrun, hlen⟩ := transcript_length_after_turns
    [⟨"hello", 7, [2], [], "sure thing"⟩,
      ⟨"hi", 42, [1], [["hi"]],
        "\x7b\"name\": \"echo\", \"arguments\": \x7b\"text\": \"hello\"\x7d\x7d"⟩]
    (by decide)
  refine ⟨st, hrun, ?_⟩
  rw [hlen]
  decide

/-- Decoding a serialized hex digit recovers its value. -/
theorem hexVal?_hexDigitChar : ∀ k, k < 16 → hexVal? (hexDigitChar k) = some k := by
  decide

/-- A Unicode scalar value is below the surrogate range or between it
and 0x110000. -/
theorem char_toNat_valid (c : Char) :
    c.toNat < 0xd800 ∨ (0xe000 ≤ c.toNat ∧ c.toNat < 0x110000) := by
  have h := c.valid
  rcases h with h | h
  · exact Or.inl h
  · exact Or.inr h

/-- Scanner step: a plain character is accumulated. -/
theorem parseJStringAux_step_plain (c : Char) (acc rest : List Char)
    (h1 : ¬c = '"') (h2 : ¬c = '\\') (h3 : ¬c.toNat < 0x20) :
    parseJStringAux .normal acc (c :: rest) = parseJStringAux .normal (c :: acc) rest := by
  rw [parseJStringAux.eq_def]
  dsimp only
  rw [if_neg h1, if_neg h2, if_neg h3]

/-- Scanner step: one hex digit of a `\uXXXX` escape, not the last. -/
theorem parseJStringAux_step_hex (c : Char) (d k v : Nat) (acc rest : List Char)
    (hd : hexVal? c = some d) (hk : ¬k = 1) :
    parseJStringAux (.hex k v) acc (c :: rest) =
      parseJStringAux (.hex (k - 1) (v * 16 + d)) acc rest := by
  rw [parseJStringAux.eq_def]
  dsimp only
  rw [hd]
  dsimp only
  rw [if_neg hk]

/-- Scanner step: last hex digit of a `\uXXXX` escape denoting a
scalar value outside the surrogate range. -/
theorem parseJStringAux_step_hex_last (c : Char) (d v : Nat) (acc rest : List Char)
    (hd : hexVal? c = some d)
    (hrange : v * 16 + d < 0xd800 ∨ 0xe000 ≤ v * 16 + d) :
    parseJStringAux (.hex 1 v) acc (c :: rest) =
      parseJStringAux .normal (Char.ofNat (v * 16 + d) :: acc) rest := by
  rw [parseJStringAux.eq_def]
  dsimp only
  rw [hd]
  dsimp only
  rw [if_pos rfl, if_pos hrange]

/-- Scanner step: last hex digit of a `\uXXXX` escape denoting a high
surrogate; the scanner now expects the low half. -/
theorem parseJStringAux_step_hex_last_hi (c : Char) (d v : Nat) (acc rest : List Char)
    (hd : hexVal? c = some d)
    (hno : ¬(v * 16 + d < 0xd800 ∨ 0xe000 ≤ v * 16 + d))
    (hlo : v * 16 + d < 0xdc00) :
    parseJStringAux (.hex 1 v) acc (c :: rest) =
      parseJStringAux (.pair (v * 16 + d)) acc rest := by
  rw [parseJStringAux.eq_def]
  dsimp only
  rw [hd]
  dsimp only
  rw [if_pos rfl, if_neg hno, if_pos hlo]

/-- Scanner step: one hex digit of the low-surrogate escape, not the
last. -/
theorem parseJStringAux_step_pairhex (c : Char) (hi d k v : Nat) (acc rest : List Char)
    (hd : hexVal? c = some d) (hk : ¬k = 1) :
    parseJStringAux (.pairHex hi k v) acc (c :: rest) =
      parseJStringAux (.pairHex hi (k - 1) (v * 16 + d)) acc rest := by
  rw [parseJStringAux.eq_def]
  dsimp only
  rw [hd]
  dsimp only
  rw [if_neg hk]

/-- Scanner step: last hex digit of the low-surrogate escape; the pair
combines into one astral scalar value. -/
theorem parseJStringAux_step_pairhex_last (c : Char) (hi d v : Nat) (acc rest : List Char)
    (hd : hexVal? c = some d)
    (hcond : 0xdc00 ≤ v * 16 + d ∧ v * 16 + d < 0xe000) :
    parseJStringAux (.pairHex hi 1 v) acc (c :: rest) =
      parseJStringAux .normal
        (Char.ofNat (0x10000 + (hi - 0xd800) * 0x400 + (v * 16 + d - 0xdc00)) :: acc) rest := by
  rw [parseJStringAux.eq_def]
  dsimp only
  rw [hd]
  dsimp only
  rw [if_pos rfl, if_pos hcond]

/-- Reading back the four emitted hex digits recombines to the
original value. -/
theorem hexDigits_recombine (v : Nat) (h : v < 0x10000) :
    (((0 * 16 + v / 4096 % 16) * 16 + v / 256 % 16) * 16 + v / 16 % 16) * 16 + v % 16 = v := by
  omega

/-- The scanner consumes the four hex digits of `hex4 v` and, for a
non-surrogate value, pushes the decoded character. -/
theorem parseJStringAux_hex4_scalar (v : Nat) (acc rest : List Char)
    (hlt : v < 0x10000) (hrange : v < 0xd800 ∨ 0xe000 ≤ v) :
    parseJStringAux (.hex 4 0) acc (hex4 v ++ rest) =
      parseJStringAux .normal (Char.ofNat v :: acc) rest := by
  rw [hex4]
  simp only [List.cons_append, List.nil_append]
  rw [parseJStringAux_step_hex _ _ _ _ _ _
    (hexVal?_hexDigitChar _ (Nat.mod_lt _ (by norm_num))) (by norm_num)]
  rw [parseJStringAux_step_hex _ _ _ _ _ _
    (hexVal?_hexDigitChar _ (Nat.mod_lt _ (by norm_num))) (by norm_num)]
  rw [parseJStringAux_step_hex _ _ _ _ _ _
    (hexVal?_hexDigitChar _ (Nat.mod_lt _ (by norm_num))) (by norm_num)]
  rw [parseJStringAux_step_hex_last _ _ _ _ _
    (hexVal?_hexDigitChar _ (Nat.mod_lt _ (by norm_num))) (by omega)]
  rw [hexDigits_recombine v hlt]

/-- The scanner consumes the four hex digits of a high-surrogate value
and waits for the low half. -/
theorem parseJStringAux_hex4_hi (v : Nat) (acc rest : List Char)
    (h1 : 0xd800 ≤ v) (h2 : v < 0xdc00) :
    parseJStringAux (.hex 4 0) acc (hex4 v ++ rest) =
      parseJStringAux (.pair v) acc rest := by
  rw [hex4]
  simp only [List.cons_append, List.nil_append]
  rw [parseJStringAux_step_hex _ _ _ _ _ _
    (hexVal?_hexDigitChar _ (Nat.mod_lt _ (by norm_num))) (by norm_num)]
  rw [parseJStringAux_step_hex _ _ _ _ _ _
    (hexVal?_hexDigitChar _ (Nat.mod_lt _ (by norm_num))) (by norm_num)]
  rw [parseJStringAux_step_hex _ _ _ _ _ _
    (hexVal?_hexDigitChar _ (Nat.mod_lt _ (by norm_num))) (by norm_num)]
  rw [parseJStringAux_step_hex_last_hi _ _ _ _ _
    (hexVal?_hexDigitChar _ (Nat.mod_lt _ (by norm_num))) (by omega) (by omega)]
  rw [hexDigits_recombine v (by omega)]

/-- The scanner consumes the four hex digits of the low-surrogate half
and pushes the combined astral character. -/
theorem parseJStringAux_pairhex4 (hi v : Nat) (acc rest : List Char)
    (h1 : 0xdc00 ≤ v) (h2 : v < 0xe000) :
    parseJStringAux (.pairHex hi 4 0) acc (hex4 v ++ rest) =
      parseJStringAux .normal
        (Char.ofNat (0x10000 + (hi - 0xd800) * 0x400 + (v - 0xdc00)) :: acc) rest := by
  rw [hex4]
  simp only [List.cons_append, List.nil_append]
  rw [parseJStringAux_step_pairhex _ _ _ _ _ _ _
    (hexVal?_hexDigitChar _ (Nat.mod_lt _ (by norm_num))) (by norm_num)]
  rw [parseJStringAux_step_pairhex _ _ _ _ _ _ _
    (hexVal?_hexDigitChar _ (Nat.mod_lt _ (by norm_num))) (by norm_num)]
  rw [parseJStringAux_step_pairhex _ _ _ _ _ _ _
    (hexVal?_hexDigitChar _ (Nat.mod_lt _ (by norm_num))) (by norm_num)]
  rw [parseJStringAux_step_pairhex_last _ _ _ _ _ _
    (hexVal?_hexDigitChar _ (Nat.mod_lt _ (by norm_num))) (by constructor <;> omega)]
  rw [hexDigits_recombine v (by omega)]

/-- Round trip for a single serialized character: the scanner decodes
whatever `escChar` emitted back to the original character and carries
on. -/
theorem parseJStringAux_escChar (c : Char) (acc t : List Char) :
    parseJStringAux .normal acc (escChar c ++ t) =
      parseJStringAux .normal (c :: acc) t := by
  by_cases h1 : c = '"'
  · subst h1
    rfl
  by_cases h2 : c = '\\'
  · subst h2
    rfl
  by_cases h3 : c = '\x08'
  · subst h3
    rfl
  by_cases h4 : c = '\x0c'
  · subst h4
    rfl
  by_cases h5 : c = '\n'
  · subst h5
    rfl
  by_cases h6 : c = '\r'
  · subst h6
    rfl
  by_cases h7 : c = '\t'
  · subst h7
    rfl
  have hval := char_toNat_valid c
  by_cases h8 : c.toNat < 0x20 ∨ 0x7f ≤ c.toNat
  · by_cases h16 : c.toNat < 0x10000
    · have hesc : escChar c = '\\' :: 'u' :: hex4 c.toNat := by
        simp only [escChar]
        rw [if_neg h1, if_neg h2, if_neg h3, if_neg h4, if_neg h5, if_neg h6, if_neg h7,
          if_pos h8, if_pos h16]
      rw [hesc]
      have step0 : ∀ X, parseJStringAux .normal acc ('\\' :: 'u' :: X) =
          parseJStringAux (.hex 4 0) acc X := fun X => rfl
      simp only [List.cons_append]
      rw [step0]
      rw [parseJStringAux_hex4_scalar c.toNat acc t h16 (by omega)]
      rw [Char.ofNat_toNat]
    · have hesc : escChar c =
          '\\' :: 'u' :: hex4 (0xd800 + (c.toNat - 0x10000) / 0x400) ++
            '\\' :: 'u' :: hex4 (0xdc00 + (c.toNat - 0x10000) % 0x400) := by
        simp only [escChar]
        rw [if_neg h1, if_neg h2, if_neg h3, if_neg h4, if_neg h5, if_neg h6, if_neg h7,
          if_pos h8, if_neg h16]
      have hv : c.toNat < 0x110000 := by
        rcases hval with h | h
        · omega
        · exact h.2
      rw [hesc]
      simp only [List.cons_append, List.append_assoc]
      have step0 : ∀ X, parseJStringAux .normal acc ('\\' :: 'u' :: X) =
          parseJStringAux (.hex 4 0) acc X := fun X => rfl
      rw [step0]
      rw [parseJStringAux_hex4_hi (0xd800 + (c.toNat - 0x10000) / 0x400) acc _
        (by omega) (by omega)]
      have step1 : ∀ X, parseJStringAux (.pair (0xd800 + (c.toNat - 0x10000) / 0x400))
          acc ('\\' :: 'u' :: X) =
          parseJStringAux (.pairHex (0xd800 + (c.toNat - 0x10000) / 0x400) 4 0) acc X :=
        fun X => rfl
      rw [step1]
      rw [parseJStringAux_pairhex4 (0xd800 + (c.toNat - 0x10000) / 0x400)
        (0xdc00 + (c.toNat - 0x10000) % 0x400) acc t (by omega) (by omega)]
      rw [show 0x10000 + (0xd800 + (c.toNat - 0x10000) / 0x400 - 0xd800) * 0x400 +
          (0xdc00 + (c.toNat - 0x10000) % 0x400 - 0xdc00) = c.toNat from by omega]
      rw [Char.ofNat_toNat]
  · have hesc : escChar c = [c] := by
      simp only [escChar]
      rw [if_neg h1, if_neg h2, if_neg h3, if_neg h4, if_neg h5, if_neg h6, if_neg h7,
        if_neg h8]
    rw [hesc]
    exact parseJStringAux_step_plain c acc t h1 h2 (fun hh => h8 (Or.inl hh))

/-- The serialized body of a string literal scans back to the original
characters (generalized over the accumulator). -/
theorem parseJStringAux_encBody (cs : List Char) : ∀ acc rest : List Char,
    parseJStringAux .normal acc (encBody cs ++ '"' :: rest) =
      some (⟨acc.reverse ++ cs⟩, rest) := by
  induction cs with
  | nil =>
    intro acc rest
    rw [show encBody [] = [] from rfl, List.nil_append, List.append_nil]
    rfl
  | cons c cs ih =>
    intro acc rest
    rw [show encBody (c :: cs) = escChar c ++ encBody cs from rfl, List.append_assoc,
      parseJStringAux_escChar, ih]
    rw [show (c :: acc).reverse = acc.reverse ++ [c] from List.reverse_cons c acc,
      List.append_assoc]
    rfl

/-- A full serialized string literal parses back to the original
string. -/
theorem parseJString_enc (s : String) (rest : List Char) :
    parseJString (encBody s.data ++ '"' :: rest) = some (s, rest) := by
  rw [parseJString, parseJStringAux_encBody]
  rfl

/-- A serialized string literal followed by anything parses as a JSON
string value. -/
theorem parseValue_encString (f : Nat) (s : String) (X : List Char) :
    parseValue (f + 1) (encStringChars s ++ X) = some (Json.str s, X) := by
  have hsh : encStringChars s ++ X = '"' :: (encBody s.data ++ '"' :: X) := by
    rw [encStringChars]
    simp [List.append_assoc]
  rw [hsh]
  have h0 : ∀ Y, parseValue (f + 1) ('"' :: Y) =
      (match parseJString Y with
       | some p => some (Json.str p.1, p.2)
       | none => none) := fun Y => rfl
  rw [h0, parseJString_enc]

/-- The serialized tool reply of line 95:
`json.dumps({"tool": name, "result": result})`. -/
def toolReplyJson (n r : String) : Json :=
  Json.obj [("tool", Json.str n), ("result", Json.str r)]

/-- One object member: with the key scan and the value parse known,
one `parseMembers` step reduces to the separator dispatch. -/
theorem parseMembers_member (g : Nat) (Y Z W : List Char) (acc : List (String × Json))
    (key : String) (v : Json)
    (hkey : parseJString Y = some (key, ':' :: ' ' :: Z))
    (hval : parseValue g (skipWs Z) = some (v, W)) :
    parseMembers (g + 1) ('"' :: Y) acc =
      (match skipWs W with
       | [] => none
       | c3 :: rest5 =>
         if c3 = ',' then parseMembers g (skipWs rest5) (acc ++ [(key, v)])
         else if c3 = '\x7d' then some (Json.obj (acc ++ [(key, v)]), rest5)
         else none) := by
  rw [parseMembers.eq_def]
  dsimp only
  rw [if_pos rfl, hkey]
  dsimp only
  rw [show skipWs (':' :: ' ' :: Z) = ':' :: ' ' :: Z from rfl]
  dsimp only
  rw [if_pos rfl]
  rw [show skipWs (' ' :: Z) = skipWs Z from rfl, hval]

/-- The serialized tool reply parses back to the original object, for
any fuel reserve. -/
theorem parse_toolReply (f : Nat) (n r : String) :
    parseValue (f + 4) (dumpsChars (toolReplyJson n r)) = some (toolReplyJson n r, []) := by
  have hkey1 : parseJString ('t' :: 'o' :: 'o' :: 'l' :: '"' :: ':' :: ' ' :: '"' ::
      (encBody n.data ++ '"' :: ',' :: ' ' :: '"' :: 'r' :: 'e' :: 's' :: 'u' :: 'l' ::
        't' :: '"' :: ':' :: ' ' :: '"' :: (encBody r.data ++ ['"', '\x7d']))) =
      some ("tool", ':' :: ' ' :: '"' ::
        (encBody n.data ++ '"' :: ',' :: ' ' :: '"' :: 'r' :: 'e' :: 's' :: 'u' :: 'l' ::
          't' :: '"' :: ':' :: ' ' :: '"' :: (encBody r.data ++ ['"', '\x7d']))) := rfl
  have hval1 : parseValue (f + 2) (skipWs ('"' ::
      (encBody n.data ++ '"' :: ',' :: ' ' :: '"' :: 'r' :: 'e' :: 's' :: 'u' :: 'l' ::
        't' :: '"' :: ':' :: ' ' :: '"' :: (encBody r.data ++ ['"', '\x7d'])))) =
      some (Json.str n, ',' :: ' ' :: '"' :: 'r' :: 'e' :: 's' :: 'u' :: 'l' ::
        't' :: '"' :: ':' :: ' ' :: '"' :: (encBody r.data ++ ['"', '\x7d'])) := by
    rw [show skipWs ('"' ::
      (encBody n.data ++ '"' :: ',' :: ' ' :: '"' :: 'r' :: 'e' :: 's' :: 'u' :: 'l' ::
        't' :: '"' :: ':' :: ' ' :: '"' :: (encBody r.data ++ ['"', '\x7d']))) = '"' ::
      (encBody n.data ++ '"' :: ',' :: ' ' :: '"' :: 'r' :: 'e' :: 's' :: 'u' :: 'l' ::
        't' :: '"' :: ':' :: ' ' :: '"' :: (encBody r.data ++ ['"', '\x7d'])) from rfl]
    rw [show ('"' :: (encBody n.data ++ '"' :: ',' :: ' ' :: '"' :: 'r' :: 'e' :: 's' ::
        'u' :: 'l' :: 't' :: '"' :: ':' :: ' ' :: '"' :: (encBody r.data ++ ['"', '\x7d']))) =
      encStringChars n ++ (',' :: ' ' :: '"' :: 'r' :: 'e' :: 's' :: 'u' :: 'l' ::
        't' :: '"' :: ':' :: ' ' :: '"' :: (encBody r.data ++ ['"', '\x7d'])) from by
      rw [encStringChars]
      simp [List.cons_append, List.append_assoc]]
    exact parseValue_encString (f + 1) n _
  have hkey2 : parseJString ('r' :: 'e' :: 's' :: 'u' :: 'l' :: 't' :: '"' :: ':' :: ' ' ::
      '"' :: (encBody r.data ++ ['"', '\x7d'])) =
      some ("result", ':' :: ' ' :: '"' :: (encBody r.data ++ ['"', '\x7d'])) := rfl
  have hval2 : parseValue (f + 1) (skipWs ('"' :: (encBody r.data ++ ['"', '\x7d']))) =
      some (Json.str r, ['\x7d']) := by
    rw [show skipWs ('"' :: (encBody r.data ++ ['"', '\x7d'])) =
      '"' :: (encBody r.data ++ ['"', '\x7d']) from rfl]
    rw [show ('"' :: (encBody r.data ++ ['"', '\x7d'])) =
      encStringChars r ++ ['\x7d'] from by
      rw [encStringChars]
      simp [List.cons_append, List.append_assoc]]
    exact parseValue_encString f r _
  refine Eq.trans (?_ :
      _ = parseMembers (f + 3) ('"' :: 't' :: 'o' :: 'o' :: 'l' :: '"' :: ':' :: ' ' :: '"' ::
        (encBody n.data ++ '"' :: ',' :: ' ' :: '"' :: 'r' :: 'e' :: 's' :: 'u' :: 'l' ::
          't' :: '"' :: ':' :: ' ' :: '"' :: (encBody r.data ++ ['"', '\x7d']))) []) ?_
  · have hL : dumpsChars (toolReplyJson n r) = '\x7b' :: '"' :: 't' :: 'o' :: 'o' :: 'l' ::
        '"' :: ':' :: ' ' :: '"' ::
        (encBody n.data ++ '"' :: ',' :: ' ' :: '"' :: 'r' :: 'e' :: 's' :: 'u' :: 'l' ::
          't' :: '"' :: ':' :: ' ' :: '"' :: (encBody r.data ++ ['"', '\x7d'])) := by
      have ht : encStringChars "tool" = '"' :: 't' :: 'o' :: 'o' :: 'l' :: '"' :: [] := rfl
      have hres : encStringChars "result" =
          '"' :: 'r' :: 'e' :: 's' :: 'u' :: 'l' :: 't' :: '"' :: [] := rfl
      simp only [toolReplyJson, dumpsChars, dumpsFields]
      rw [ht, hres]
      simp only [encStringChars, List.cons_append, List.nil_append, List.append_assoc]
    rw [hL]
    rfl
  · rw [parseMembers_member (f + 2) _ _ _ [] "tool" (Json.str n) hkey1 hval1]
    refine Eq.trans (?_ :
        _ = parseMembers (f + 2) ('"' :: 'r' :: 'e' :: 's' :: 'u' :: 'l' :: 't' :: '"' ::
          ':' :: ' ' :: '"' :: (encBody r.data ++ ['"', '\x7d'])) [("tool", Json.str n)]) ?_
    · rfl
    · rw [parseMembers_member (f + 1) _ _ _ [("tool", Json.str n)] "result" (Json.str r)
        hkey2 hval2]
      rfl

/-- Claim C9: serializing a successful tool invocation's reply as
`{"tool": n, "result": r}` (exactly the payload the loop appends as the
tool message, line 95) and re-parsing that text yields the same pair —
round-trip identity of the tool-reply serialization, for every tool
name and every string result. -/
theorem tool_reply_serialization_roundtrip (n r : String) :
    loads (dumps (Json.obj [("tool", Json.str n), ("result", Json.str r)])) =
      some (Json.obj [("tool", Json.str n), ("result", Json.str r)]) := by
  have h := parse_toolReply (2 * (dumps (toolReplyJson n r)).length) n r
  simp only [loads]
  rw [show (dumps (Json.obj [("tool", Json.str n), ("result", Json.str r)])).data =
    dumpsChars (toolReplyJson n r) from rfl]
  rw [show 2 * (dumps (Json.obj [("tool", Json.str n), ("result", Json.str r)])).length + 4 =
    2 * (dumps (toolReplyJson n r)).length + 4 from rfl]
  rw [h]
  rfl
